import Mathlib

/-!
Verification development for the rule-based heuristic analysis engine of the
pr-review-agent repository.  The JavaScript analyzers are shallowly embedded:
each line of a source file is a `List Char`, JavaScript string operations are
translated to total Lean functions, and every regular expression used by the
analyzers is translated to an explicit decision function over character lists.
-/

/-- JavaScript whitespace for `trim` and the regex class `\s`
(ASCII fragment; the analyzed inputs are ASCII). -/
def jsSpace (c : Char) : Bool :=
  c == ' ' || c == '\t' || c == '\n' || c == '\r' || c == '\x0b' || c == '\x0c'

/-- The regex word class `\w` = `[A-Za-z0-9_]`. -/
def wordChar (c : Char) : Bool :=
  c.isAlpha || c.isDigit || c == '_'

/-- JavaScript `String.prototype.trim` on a character list. -/
def jsTrimL (l : List Char) : List Char :=
  ((l.dropWhile jsSpace).reverse.dropWhile jsSpace).reverse

/-- Boolean list-prefix test. -/
def isPrefixL : List Char → List Char → Bool
  | [], _ => true
  | _ :: _, [] => false
  | p :: ps, c :: cs => p == c && isPrefixL ps cs

/-- JavaScript `includes`: `pat` occurs as a contiguous substring of `l`. -/
def containsLC : List Char → List Char → Bool
  | [], pat => pat.isEmpty
  | c :: cs, pat => isPrefixL pat (c :: cs) || containsLC cs pat

/-- `l.includes(s)` with a string pattern. -/
def containsS (l : List Char) (s : String) : Bool :=
  containsLC l s.toList

/-- `l.startsWith(s)`. -/
def startsWithS (l : List Char) (s : String) : Bool :=
  isPrefixL s.toList l

/-- `l.endsWith(s)`. -/
def endsWithS (l : List Char) (s : String) : Bool :=
  isPrefixL s.toList.reverse l.reverse

/-- JavaScript `toLowerCase` (ASCII fragment). -/
def lowerL (l : List Char) : List Char :=
  l.map Char.toLower

/-- JavaScript `content.split('\n')`: `"" ↦ [""]`, separators not kept. -/
def splitLines : List Char → List (List Char)
  | [] => [[]]
  | '\n' :: cs => [] :: splitLines cs
  | c :: cs =>
    match splitLines cs with
    | [] => [[c]]
    | r :: rs => (c :: r) :: rs

/-- Fuel-driven worker for `splitOnL`. -/
def splitOnAuxL (sep : List Char) : Nat → List Char → List Char → List (List Char)
  | _, [], cur => [cur.reverse]
  | 0, l, cur => [cur.reverse ++ l]
  | fuel + 1, c :: cs, cur =>
    if isPrefixL sep (c :: cs) then
      cur.reverse :: splitOnAuxL sep fuel ((c :: cs).drop sep.length) []
    else
      splitOnAuxL sep fuel cs (c :: cur)

/-- JavaScript `split(sep)` for a non-empty separator. -/
def splitOnL (sep l : List Char) : List (List Char) :=
  splitOnAuxL sep l.length l []

/-- Drop a literal pattern from the front, or fail. -/
def dropPrefixL : List Char → List Char → Option (List Char)
  | [], l => some l
  | _ :: _, [] => none
  | p :: ps, c :: cs => if p == c then dropPrefixL ps cs else none

/-- Skip the maximal run of `\s` characters. -/
def skipSpacesL (l : List Char) : List Char :=
  l.dropWhile jsSpace

/-- Match `\s+` (at least one space), returning the rest after the maximal run. -/
def spaces1 : List Char → Option (List Char)
  | [] => none
  | c :: cs => if jsSpace c then some (skipSpacesL cs) else none

/-- Match `\w+` (at least one word character), returning the rest after the maximal run. -/
def words1 : List Char → Option (List Char)
  | [] => none
  | c :: cs => if wordChar c then some (cs.dropWhile wordChar) else none

/-- The regex `.` (any character except line terminators). -/
def jsDot (c : Char) : Bool :=
  !(c == '\n' || c == '\r' || c == '\u2028' || c == '\u2029')

/-- Existential `.*p`: some suffix reachable over `.`-matching characters satisfies `p`. -/
def dotStarThen (p : List Char → Bool) : List Char → Bool
  | [] => p []
  | c :: cs => p (c :: cs) || (jsDot c && dotStarThen p cs)

/-- Length of the leading digit run. -/
def digitRunLen : List Char → Nat
  | [] => 0
  | c :: cs => if c.isDigit then digitRunLen cs + 1 else 0

/-- Drop the leading digit run. -/
def dropDigits : List Char → List Char
  | [] => []
  | c :: cs => if c.isDigit then dropDigits cs else c :: cs

/-- Scanner for `\b\d{3,}\b`: the flag records whether the previous character
was a word character (so that `\b` holds exactly when it is `false`). -/
def magicAux : Bool → List Char → Bool
  | _, [] => false
  | prevWord, c :: cs =>
    (if c.isDigit && !prevWord then
       decide (3 ≤ digitRunLen (c :: cs)) &&
       (match dropDigits (c :: cs) with
        | [] => true
        | d :: _ => !wordChar d)
     else false)
    || magicAux (wordChar c) cs

/-- The regex `/\b\d{3,}\b/` of the magic-number rule. -/
def reMagicNumber (l : List Char) : Bool :=
  magicAux false l

/-- The regex `/^\s*class\s+/` of the access-modifier rule. -/
def reClassDecl (l : List Char) : Bool :=
  match l.dropWhile jsSpace with
  | 'c' :: 'l' :: 'a' :: 's' :: 's' :: c :: _ => jsSpace c
  | _ => false

/-- After a matched keyword: `\s*[=:]\s*["']`. -/
def eqColonQuote (l : List Char) : Bool :=
  match skipSpacesL l with
  | c :: rest =>
    (c == '=' || c == ':') &&
    (match skipSpacesL rest with
     | q :: _ => q == '"' || q == '\''
     | [] => false)
  | [] => false

/-- One of the keywords followed by `\s*[=:]\s*["']`, at the current position. -/
def keyAssignAt (kws : List (List Char)) (l : List Char) : Bool :=
  kws.any fun kw =>
    match dropPrefixL kw l with
    | some rest => eqColonQuote rest
    | none => false

/-- Scan all positions for `(kw₁|…|kwₙ)\s*[=:]\s*["']`. -/
def scanKeyAssign (kws : List (List Char)) : List Char → Bool
  | [] => false
  | c :: cs => keyAssignAt kws (c :: cs) || scanKeyAssign kws cs

/-- Keyword alternatives of the Java hardcoded-secret regex
`(password|secret|token|api[_-]?key|private[_-]?key)`. -/
def javaSecretKws : List (List Char) :=
  ["password".toList, "secret".toList, "token".toList,
   "apikey".toList, "api_key".toList, "api-key".toList,
   "privatekey".toList, "private_key".toList, "private-key".toList]

/-- Keyword alternatives of the React hardcoded-secret regex
`(password|secret|token|api[_-]?key)`. -/
def reactSecretKws : List (List Char) :=
  ["password".toList, "secret".toList, "token".toList,
   "apikey".toList, "api_key".toList, "api-key".toList]

/-- Keyword alternatives of the database-URL regex `(jdbc|database|host|connection|url)`. -/
def dbKws : List (List Char) :=
  ["jdbc".toList, "database".toList, "host".toList,
   "connection".toList, "url".toList]

/-- `public\s+\w+\s+\w+\s*\(` at the current position. -/
def publicMethodAt (l : List Char) : Bool :=
  match dropPrefixL "public".toList l with
  | none => false
  | some r1 =>
    match spaces1 r1 with
    | none => false
    | some r2 =>
      match words1 r2 with
      | none => false
      | some r3 =>
        match spaces1 r3 with
        | none => false
        | some r4 =>
          match words1 r4 with
          | none => false
          | some r5 =>
            match skipSpacesL r5 with
            | '(' :: _ => true
            | _ => false

/-- The regex `/public\s+\w+\s+\w+\s*\(/` of the JavaDoc and test-coverage rules. -/
def rePublicMethod : List Char → Bool
  | [] => false
  | c :: cs => publicMethodAt (c :: cs) || rePublicMethod cs

/-- The tail alternatives of the SQL-injection regex: a dollar sign followed by
an opening brace, or a plus sign. -/
def dollarBraceOrPlus (l : List Char) : Bool :=
  match l with
  | '$' :: '\x7b' :: _ => true
  | '+' :: _ => true
  | _ => false

/-- `(query|statement|execute)\s*[=]\s*["'].*(\$\{|\+)` at the current position. -/
def sqlKeyQuoteAt (l : List Char) : Bool :=
  ["query", "statement", "execute"].any fun kw =>
    match dropPrefixL kw.toList l with
    | none => false
    | some r =>
      match skipSpacesL r with
      | '=' :: r2 =>
        (match skipSpacesL r2 with
         | q :: r3 => (q == '"' || q == '\'') && dotStarThen dollarBraceOrPlus r3
         | [] => false)
      | _ => false

/-- First alternative of the SQL-injection regex, scanned over all positions. -/
def reSqlConcat : List Char → Bool
  | [] => false
  | c :: cs => sqlKeyQuoteAt (c :: cs) || reSqlConcat cs

/-- Negative lookahead `(?!\s*>)` after `.length`. -/
def lengthNotGt (l : List Char) : Bool :=
  match skipSpacesL l with
  | '>' :: _ => false
  | _ => true

/-- `\.toString\(\)|\.equals\(|\.length(?!\s*>)` at the current position. -/
def npeAt (l : List Char) : Bool :=
  startsWithS l ".toString()" || startsWithS l ".equals(" ||
  (match dropPrefixL ".length".toList l with
   | some r => lengthNotGt r
   | none => false)

/-- The null-pointer-risk regex scanned over all positions. -/
def reNPE : List Char → Bool
  | [] => false
  | c :: cs => npeAt (c :: cs) || reNPE cs

/-- `int\s+\w+.*\)` at the current position (inner part of the for-int regex). -/
def intThenClose (l : List Char) : Bool :=
  match dropPrefixL "int".toList l with
  | none => false
  | some r =>
    match spaces1 r with
    | none => false
    | some r2 =>
      match r2 with
      | d :: ds =>
        wordChar d &&
        dotStarThen
          (fun m => match m with | ')' :: _ => true | _ => false) ds
      | [] => false

/-- `for\s*\(.*int\s+\w+.*\)` at the current position. -/
def forIntAt (l : List Char) : Bool :=
  match dropPrefixL "for".toList l with
  | none => false
  | some r =>
    match skipSpacesL r with
    | '(' :: r2 => dotStarThen intThenClose r2
    | _ => false

/-- The stream-opportunity regex `/for\s*\(.*int\s+\w+.*\)/`. -/
def reForInt : List Char → Bool
  | [] => false
  | c :: cs => forIntAt (c :: cs) || reForInt cs

/-- `["']\s*\+\s*|\+\s*["']` at the current position. -/
def concatAt (l : List Char) : Bool :=
  match l with
  | [] => false
  | c :: cs =>
    ((c == '"' || c == '\'') &&
      (match skipSpacesL cs with | '+' :: _ => true | _ => false)) ||
    (c == '+' &&
      (match skipSpacesL cs with | q :: _ => q == '"' || q == '\'' | _ => false))

/-- The string-concatenation regex scanned over all positions. -/
def reConcat : List Char → Bool
  | [] => false
  | c :: cs => concatAt (c :: cs) || reConcat cs

/-- Number of non-overlapping matches of `/&&|\|\|/g`, scanning left to right. -/
def combinatorCount : List Char → Nat
  | '&' :: '&' :: cs => combinatorCount cs + 1
  | '|' :: '|' :: cs => combinatorCount cs + 1
  | _ :: cs => combinatorCount cs
  | [] => 0

/-- `^\s*\w+\s*=`, anchored at the start of the line. -/
def startsAssign (l : List Char) : Bool :=
  match skipSpacesL l with
  | [] => false
  | c :: cs =>
    wordChar c &&
    (match skipSpacesL (cs.dropWhile wordChar) with
     | '=' :: _ => true
     | _ => false)

/-- `\w+\(` somewhere in the line: a word character directly before `(`. -/
def wordParen : List Char → Bool
  | c :: d :: cs => (wordChar c && d == '(') || wordParen (d :: cs)
  | _ => false

/-- The unreachable-code regex `/^\s*\w+\s*=|\w+\(/`. -/
def reAssignOrCall (l : List Char) : Bool :=
  startsAssign l || wordParen l

/-- Character class `[a-z0-9]` of the snake-case regex. -/
def lowerAlnum (c : Char) : Bool :=
  c.isLower || c.isDigit

/-- `[a-z][a-z0-9]*_[a-z0-9]*\b` at a position whose left neighbour is not a
word character. -/
def snakeAt (l : List Char) : Bool :=
  match l with
  | [] => false
  | c :: cs =>
    c.isLower &&
    (match cs.dropWhile lowerAlnum with
     | '_' :: r =>
       (match r.dropWhile lowerAlnum with
        | [] => true
        | d :: _ => !wordChar d)
     | _ => false)

/-- Scanner for the snake-case regex, tracking the word-boundary flag. -/
def snakeScan : Bool → List Char → Bool
  | _, [] => false
  | prevWord, c :: cs => (!prevWord && snakeAt (c :: cs)) || snakeScan (wordChar c) cs

/-- The naming-convention regex `/\b[a-z][a-z0-9]*_[a-z0-9]*\b/`. -/
def reSnake (l : List Char) : Bool :=
  snakeScan false l

/-- The dead-code regex `/^\s*\w+/`. -/
def reStartWord (l : List Char) : Bool :=
  match skipSpacesL l with
  | c :: _ => wordChar c
  | [] => false

/-- `var\s+` at a position whose left neighbour is not a word character. -/
def varAt (l : List Char) : Bool :=
  match dropPrefixL "var".toList l with
  | some (c :: _) => jsSpace c
  | _ => false

/-- Scanner for the `var` regex, tracking the word-boundary flag. -/
def varScan : Bool → List Char → Bool
  | _, [] => false
  | prevWord, c :: cs => (!prevWord && varAt (c :: cs)) || varScan (wordChar c) cs

/-- The React `var` regex `/\bvar\s+/`. -/
def reVar (l : List Char) : Bool :=
  varScan false l

/-- JavaScript `Array.prototype.slice(a, b)` on lists (both ends clamped). -/
def jsSlice (l : List (List Char)) (a b : Nat) : List (List Char) :=
  (l.take b).drop a

/-- JavaScript `array.join(' ')`. -/
def joinSpace : List (List Char) → List Char
  | [] => []
  | [l] => l
  | l :: ls => l ++ ' ' :: joinSpace ls

/-- A Finding, exactly the object literal pushed by the analyzers. -/
structure Issue where
  file : String
  line : Nat
  severity : String
  rule : String
  message : String
  suggestion : String
deriving DecidableEq

/-- Conditional singleton: the list pushed by one `if (…) issues.push(…)` site. -/
def iteIssue (c : Bool) (iss : Issue) : List Issue :=
  if c then [iss] else []

/-- Build a Finding. -/
def mkIssue (file : String) (line : Nat) (severity rule message suggestion : String) : Issue :=
  ⟨file, line, severity, rule, message, suggestion⟩

/-- The five rule ids that only `analyzeBlockComment` can emit. -/
def isCommentRule (r : String) : Bool :=
  r == "EMPTY_BLOCK_COMMENT" || r == "INCOMPLETE_TODO_BLOCK" || r == "FIXME_COMMENT" ||
  r == "TEMPORARY_WORKAROUND" || r == "INCOMPLETE_JAVADOC" || r == "MISSING_JSDOC_TAGS"

/-- Condition of Java rule 3: `// TODO` with nothing after the first `TODO`
up to the next `TODO` or end (JavaScript `!line.split('TODO')[1]?.trim()`). -/
def todoNoDesc (line : List Char) : Bool :=
  containsS line "// TODO" &&
  (match (splitOnL "TODO".toList line).get? 1 with
   | none => true
   | some s => (jsTrimL s).isEmpty)

/-- Condition of Java rule 15 (RESOURCE_LEAK): a resource constructor on the
line and no cleanup in `lines.slice(index, Math.min(index + 10, lines.length))`. -/
def resourceLeakCond (lines : List (List Char)) (index : Nat) (line : List Char) : Bool :=
  (containsS line "new FileInputStream" || containsS line "new BufferedReader" ||
   containsS line "getConnection") &&
  !((jsSlice lines index (min (index + 10) lines.length)).any fun l =>
      containsS l "close()" || containsS l "try-with-resources")

/-- Condition of Java rule 21 (RESOURCE_MANAGEMENT), with the unguarded
`lines[index - 1].includes('try')` access behind the `index > 0` conjunct. -/
def resourceMgmtCond (lines : List (List Char)) (index : Nat) (line : List Char) : Bool :=
  (containsS line "FileInputStream" || containsS line "Connection" || containsS line "Socket") &&
  !containsS line "try" && decide (0 < index) &&
  !containsS (lines.getD (index - 1) []) "try"

/-- The Finding of Java rule 21. -/
def resourceMgmtIssue (fn : String) (index : Nat) : Issue :=
  mkIssue fn (index + 1) "error" "RESOURCE_MANAGEMENT"
    "Resource should use try-with-resources"
    "try (Resource r = new Resource()) \x7b ... \x7d"

/-- Java rules 1-20, in source order. -/
def javaLineIssuesPre (fn : String) (lines : List (List Char)) (index : Nat)
    (line : List Char) : List Issue :=
  let lineNumber := index + 1
  let trimmedLine := jsTrimL line
  iteIssue (containsS line "System.out.println" || containsS line "System.err.println")
    (mkIssue fn lineNumber "warning" "USE_LOGGING_FRAMEWORK"
      "Use a logging framework instead of System.out/err.println"
      "Replace with logger.info() or logger.error()") ++
  iteIssue (containsS line "catch" && containsS line "\x7b\x7d")
    (mkIssue fn lineNumber "error" "EMPTY_CATCH_BLOCK"
      "Empty catch blocks silently ignore exceptions"
      "Add proper error handling or at least log the exception") ++
  iteIssue (todoNoDesc line)
    (mkIssue fn lineNumber "info" "INCOMPLETE_TODO"
      "TODO comment without description"
      "Add details about what needs to be done") ++
  iteIssue (reMagicNumber line && !startsWithS trimmedLine "//")
    (mkIssue fn lineNumber "warning" "MAGIC_NUMBER"
      "Magic numbers should be extracted to named constants"
      "Create: private static final int CONSTANT_NAME = ...") ++
  iteIssue (reClassDecl line &&
      !(containsS line "public" || containsS line "private" || containsS line "protected"))
    (mkIssue fn lineNumber "warning" "MISSING_ACCESS_MODIFIER"
      "Class should have explicit access modifier"
      "Add public/private/protected modifier") ++
  iteIssue (decide (120 < line.length))
    (mkIssue fn lineNumber "info" "LONG_LINE"
      ("Line is too long (" ++ toString line.length ++ " characters, max 120)")
      "Break this line into multiple lines") ++
  iteIssue (containsS line "Thread.sleep")
    (mkIssue fn lineNumber "warning" "THREAD_SLEEP"
      "Avoid Thread.sleep() in production code"
      "Use scheduled executors or other async patterns") ++
  iteIssue (scanKeyAssign javaSecretKws (lowerL line))
    (mkIssue fn lineNumber "error" "HARDCODED_SECRET"
      "Hardcoded secrets detected"
      "Use environment variables or secure vaults") ++
  iteIssue (containsS line "import" && containsS line ".*")
    (mkIssue fn lineNumber "error" "WILDCARD_IMPORT"
      "Wildcard imports make code harder to understand"
      "Use explicit imports instead") ++
  iteIssue (rePublicMethod line && decide (0 < index) &&
      (let prevLine := jsTrimL (lines.getD (index - 1) []);
       !startsWithS prevLine "*" && !containsS prevLine "@" && !containsS prevLine "/**"))
    (mkIssue fn lineNumber "warning" "MISSING_JAVADOC"
      "Public method should have JavaDoc"
      "Add /** @param @return @throws */ comment") ++
  iteIssue (containsS line "for" &&
      (jsSlice lines (index - 5) index).any (fun l => containsS l "for"))
    (mkIssue fn lineNumber "info" "NESTED_LOOPS"
      "Nested loops detected - review performance"
      "Consider streams or refactoring") ++
  iteIssue ((reSqlConcat line || containsS line ".setString") &&
      !containsS line "PreparedStatement" && !containsS line "?")
    (mkIssue fn lineNumber "error" "SQL_INJECTION_RISK"
      "Potential SQL injection - using string concatenation"
      "Use PreparedStatement with ? placeholders") ++
  iteIssue (reNPE line &&
      !((jsSlice lines (index - 3) index).any fun l =>
          containsS l "!= null" || containsS l "null check"))
    (mkIssue fn lineNumber "warning" "NULL_POINTER_RISK"
      "Potential NullPointerException - no null check"
      "Add: if (object != null) \x7b ... \x7d") ++
  iteIssue (scanKeyAssign dbKws (lowerL line) &&
      (containsS line "localhost" || containsS line "127.0.0.1" || containsS line "192.168"))
    (mkIssue fn lineNumber "error" "HARDCODED_DATABASE_URL"
      "Hardcoded database URL detected"
      "Use configuration files or environment variables") ++
  iteIssue (resourceLeakCond lines index line)
    (mkIssue fn lineNumber "error" "RESOURCE_LEAK"
      "Resource opened without cleanup - memory leak risk"
      "Use try-with-resources: try (Resource r = ...) \x7b ... \x7d") ++
  iteIssue ((containsS line "log.debug" || containsS line "log.info") &&
      (containsS (lowerL line) "performance" || containsS (lowerL line) "timing" ||
       containsS (lowerL line) "benchmark" || containsS (lowerL line) "duration" ||
       containsS (lowerL line) "elapsed" || containsS (lowerL line) "latency"))
    (mkIssue fn lineNumber "info" "LOG_LEVEL_MISUSE"
      "Performance metrics should use metrics library"
      "Use Micrometer, Prometheus or metrics framework") ++
  iteIssue (rePublicMethod line &&
      (jsSlice lines index (min (index + 10) lines.length)).any
        (fun l => containsS l "&&" || containsS l "||" || containsS l "?"))
    (mkIssue fn lineNumber "info" "TEST_COVERAGE_HINT"
      "Complex public method should have unit tests"
      "Add tests for multiple code paths") ++
  iteIssue (reForInt line &&
      (jsSlice lines index (min (index + 10) lines.length)).any
        (fun l => containsS l ".add" || containsS l ".filter"))
    (mkIssue fn lineNumber "info" "USE_STREAM_API"
      "Traditional loop could use Stream API"
      "Use .stream().filter().map().collect()") ++
  iteIssue (containsS line "catch (Exception " && !containsS line "catch (Exception e)")
    (mkIssue fn lineNumber "warning" "GENERIC_EXCEPTION"
      "Catching generic Exception is too broad"
      "Catch specific exceptions: IOException, SQLException") ++
  iteIssue (containsS line "static" && containsS line "private" &&
      !containsS line "final" && !containsS line "synchronized")
    (mkIssue fn lineNumber "warning" "THREAD_SAFETY_RISK"
      "Mutable shared state - thread safety concern"
      "Use synchronization or immutable data")

/-- Java rules 22-30, in source order (rule 29 pushes nothing). -/
def javaLineIssuesPost (fn : String) (lines : List (List Char)) (index : Nat)
    (line : List Char) : List Issue :=
  let lineNumber := index + 1
  let trimmedLine := jsTrimL line
  iteIssue (containsS line "+" && reConcat line &&
      (let prevLines := joinSpace (jsSlice lines (index - 5) index);
       containsS prevLines "for" || containsS prevLines "while"))
    (mkIssue fn lineNumber "warning" "PERFORMANCE_HOTSPOT"
      "String concatenation in loop - performance issue"
      "Use StringBuilder: new StringBuilder().append(...)") ++
  iteIssue (decide (2 < combinatorCount line))
    (mkIssue fn lineNumber "info" "HIGH_COMPLEXITY"
      "Complex conditional logic detected"
      "Extract to separate method or use strategy pattern") ++
  iteIssue (containsS line "return" &&
      (jsSlice lines (index + 1) (min (index + 5) lines.length)).any
        (fun l => reAssignOrCall l && !containsS l "//" && !(jsTrimL l).isEmpty))
    (mkIssue fn lineNumber "warning" "UNREACHABLE_CODE"
      "Code after return statement is unreachable"
      "Remove dead code") ++
  iteIssue (reSnake line && containsS line "=")
    (mkIssue fn lineNumber "info" "NAMING_CONVENTION"
      "Variable uses snake_case instead of camelCase"
      "Use camelCase: myVariable instead of my_variable") ++
  iteIssue (containsS line "@Override" && decide (index + 1 < lines.length) &&
      !containsS (lines.getD (index + 1) []) "public" &&
      !containsS (lines.getD (index + 1) []) "protected")
    (mkIssue fn lineNumber "info" "ANNOTATION_PLACEMENT"
      "@Override should be on method declaration"
      "Place @Override directly above the method signature") ++
  iteIssue (containsS line "public" && containsS line "String" && containsS line "parse")
    (mkIssue fn lineNumber "info" "API_DESIGN"
      "Parse methods should document expected format and exceptions"
      "Add JavaDoc with @throws for parsing failures") ++
  iteIssue (containsS line "return" && !startsWithS trimmedLine "//" &&
      (match (jsSlice lines (index + 1) (index + 3)).find? (fun l =>
          !(jsTrimL l).isEmpty && !startsWithS (jsTrimL l) "//" &&
          !startsWithS (jsTrimL l) "\x7d") with
       | some nextCode => reStartWord nextCode
       | none => false))
    (mkIssue fn lineNumber "warning" "UNREACHABLE_CODE"
      "Unreachable code detected after return"
      "Review and remove dead code") ++
  iteIssue (containsS line "throws Exception")
    (mkIssue fn lineNumber "info" "THROWS_GENERIC_EXCEPTION"
      "Methods should throw specific exceptions"
      "Throw IOException, SQLException, etc. instead of generic Exception")

/-- All Java line rules at one line, in source order (rule 21 in the middle). -/
def javaLineIssues (fn : String) (lines : List (List Char)) (index : Nat)
    (line : List Char) : List Issue :=
  javaLineIssuesPre fn lines index line ++
  iteIssue (resourceMgmtCond lines index line) (resourceMgmtIssue fn index) ++
  javaLineIssuesPost fn lines index line

/-- `JavaAnalyzer.analyzeBlockComment`, translated statement by statement. -/
def analyzeBlockComment (blockComment : List Char) (lineNumber : Nat) (fn : String) :
    List Issue :=
  let commentLines := splitLines blockComment
  if commentLines.length ≤ 2 then
    [mkIssue fn lineNumber "info" "EMPTY_BLOCK_COMMENT"
      "Block comment appears to be empty"
      "Remove or add meaningful documentation"]
  else
    let commentContent := lowerL blockComment
    iteIssue (containsS commentContent "todo" &&
        (match (splitOnL "TODO".toList blockComment).get? 1 with
         | none => true
         | some s => (jsTrimL s).isEmpty))
      (mkIssue fn lineNumber "warning" "INCOMPLETE_TODO_BLOCK"
        "Incomplete TODO in block comment"
        "Add description with assignee and deadline") ++
    iteIssue (containsS commentContent "fixme")
      (mkIssue fn lineNumber "error" "FIXME_COMMENT"
        "FIXME comment - resolve before production"
        "Create ticket or resolve immediately") ++
    iteIssue (containsS commentContent "bug" || containsS commentContent "hack")
      (mkIssue fn lineNumber "warning" "TEMPORARY_WORKAROUND"
        "Temporary workaround detected"
        "Document why and plan refactoring") ++
    iteIssue (containsS blockComment "/**" &&
        (!containsS blockComment "@param" && !containsS blockComment "@return" &&
         !containsS blockComment "@throws" && decide (50 < blockComment.length)))
      (mkIssue fn lineNumber "info" "INCOMPLETE_JAVADOC"
        "JavaDoc missing @param/@return/@throws"
        "Add documentation tags for completeness")

/-- The mutable scan state of `JavaAnalyzer.analyze`. -/
structure ScanState where
  inBlockComment : Bool
  blockCommentStart : Nat
  blockCommentContent : List Char
deriving DecidableEq

/-- The initial scan state. -/
def initScan : ScanState :=
  ⟨false, 0, []⟩

/-- Trimmed line begins a block comment. -/
def startsBlock (line : List Char) : Bool :=
  startsWithS (jsTrimL line) "/*"

/-- Trimmed line contains the closing marker. -/
def closesBlock (line : List Char) : Bool :=
  containsS (jsTrimL line) "*/"

/-- The block-comment handling at the top of the per-line callback: returns the
state visible at the classifier gate together with the comment findings. -/
def commentUpdate (fn : String) (st : ScanState) (lineNumber : Nat) (line : List Char) :
    ScanState × List Issue :=
  if startsBlock line then
    (⟨true, lineNumber, line⟩, [])
  else if st.inBlockComment then
    let content := st.blockCommentContent ++ '\n' :: line
    if closesBlock line then
      (⟨false, st.blockCommentStart, []⟩, analyzeBlockComment content st.blockCommentStart fn)
    else
      (⟨true, st.blockCommentStart, content⟩, [])
  else
    (st, [])

/-- One iteration of the `forEach` body of `JavaAnalyzer.analyze`. -/
def javaStep (fn : String) (lines : List (List Char)) (index : Nat) (st : ScanState) :
    ScanState × List Issue :=
  if (commentUpdate fn st (index + 1) (lines.getD index [])).1.inBlockComment then
    commentUpdate fn st (index + 1) (lines.getD index [])
  else
    ((commentUpdate fn st (index + 1) (lines.getD index [])).1,
     (commentUpdate fn st (index + 1) (lines.getD index [])).2 ++
       javaLineIssues fn lines index (lines.getD index []))

/-- State after one line, as seen by the classifier gate and by the next line. -/
def stepState (fn : String) (lines : List (List Char)) (index : Nat) (st : ScanState) :
    ScanState :=
  (commentUpdate fn st (index + 1) (lines.getD index [])).1

/-- Iterate `javaStep` over `k` lines starting at `index`, from state `st`. -/
def scanAux (fn : String) (lines : List (List Char)) : Nat → Nat → ScanState → List Issue
  | 0, _, _ => []
  | k + 1, i, st =>
    (javaStep fn lines i st).2 ++ scanAux fn lines k (i + 1) (javaStep fn lines i st).1

/-- State reached from `st` after scanning `j` lines starting at index `i`. -/
def stAtFrom (fn : String) (lines : List (List Char)) (st : ScanState) (i : Nat) :
    Nat → ScanState
  | 0 => st
  | j + 1 => stepState fn lines (i + j) (stAtFrom fn lines st i j)

/-- State reached after the first `j` lines of the file. -/
def stAt (fn : String) (lines : List (List Char)) (j : Nat) : ScanState :=
  stAtFrom fn lines initScan 0 j

/-- `JavaAnalyzer.analyze` on pre-split lines. -/
def javaAnalyzeL (fn : String) (lines : List (List Char)) : List Issue :=
  scanAux fn lines lines.length 0 initScan

/-- The line array of a source text. -/
def linesOf (content : String) : List (List Char) :=
  splitLines content.toList

/-- `JavaAnalyzer.analyze(content, filename)`. -/
def javaAnalyze (content fn : String) : List Issue :=
  javaAnalyzeL fn (linesOf content)

/-- The twelve line rules of the stateless `ReactAnalyzer.analyze` variant,
in source order. -/
def reactLineIssues (fn : String) (lines : List (List Char)) (index : Nat)
    (line : List Char) : List Issue :=
  let lineNumber := index + 1
  iteIssue (containsS line "console.log" && !startsWithS (jsTrimL line) "//")
    (mkIssue fn lineNumber "warning" "CONSOLE_LOG"
      "console.log statements should be removed or replaced with proper logging"
      "Remove console.log or use a proper logger like winston or debug") ++
  iteIssue ((containsS line "console.warn" || containsS line "console.error") &&
      !startsWithS (jsTrimL line) "//")
    (mkIssue fn lineNumber "info" "CONSOLE_OUTPUT"
      "Consider using a proper logging framework"
      "Use a logger instead of console methods") ++
  iteIssue (containsS line ".map(" && containsS line "<" && !containsS line "key=")
    (mkIssue fn lineNumber "error" "MISSING_KEY_PROP"
      "Missing key prop in list rendering"
      "Add a unique key prop to list items: <Item key=\x7bitem.id\x7d />") ++
  iteIssue ((containsS line "this.state." || containsS line "state.") &&
      containsS line "=" && !containsS line "setState")
    (mkIssue fn lineNumber "error" "DIRECT_STATE_MUTATION"
      "Direct state mutation detected"
      "Use setState() or state setter functions instead of direct assignment") ++
  iteIssue (containsS line "useState" && !containsS line "import")
    (mkIssue fn lineNumber "error" "MISSING_IMPORT"
      "useState used but not imported from React"
      "Add: import \x7b useState \x7d from \"react\";") ++
  iteIssue (containsS line "useEffect" && containsS line "[]")
    (mkIssue fn lineNumber "info" "EFFECT_RUNS_ONCE"
      "useEffect with empty dependency array runs only on mount"
      "Verify this is intentional, add dependencies if needed") ++
  iteIssue ((containsS line "onClick=" || containsS line "onChange=") &&
      containsS line "() =>" && !startsWithS (jsTrimL line) "//")
    (mkIssue fn lineNumber "warning" "INLINE_FUNCTION"
      "Inline function definition can cause performance issues"
      "Define handler function outside of JSX or use useCallback") ++
  iteIssue (containsS line "export" && containsS line "function" &&
      !containsS line "interface" && endsWithS fn.toList ".tsx")
    (mkIssue fn lineNumber "info" "MISSING_PROP_TYPES"
      "Component props should be typed"
      "Add interface for props: interface Props \x7b ... \x7d") ++
  iteIssue (containsS line ".then(" &&
      !((jsSlice lines index (min (index + 5) lines.length)).any fun l =>
          containsS l ".catch("))
    (mkIssue fn lineNumber "warning" "MISSING_ERROR_HANDLING"
      "Promise chain without error handling"
      "Add .catch() handler or use async/await with try-catch") ++
  iteIssue (reVar line && !startsWithS (jsTrimL line) "//")
    (mkIssue fn lineNumber "warning" "USE_CONST_LET"
      "Use const or let instead of var"
      "Replace var with const (or let if reassignment is needed)") ++
  iteIssue (decide (100 < line.length))
    (mkIssue fn lineNumber "info" "LONG_LINE"
      ("Line is too long (" ++ toString line.length ++ " characters, max recommended is 100)")
      "Consider breaking this line into multiple lines") ++
  iteIssue (scanKeyAssign reactSecretKws (lowerL line))
    (mkIssue fn lineNumber "error" "HARDCODED_SECRET"
      "Hardcoded secrets/passwords detected"
      "Use environment variables or .env files for secrets")

/-- The stateless `forEach` of the React analyzer over `k` lines from `index`. -/
def reactScan (fn : String) (lines : List (List Char)) : Nat → Nat → List Issue
  | 0, _ => []
  | k + 1, i => reactLineIssues fn lines i (lines.getD i []) ++ reactScan fn lines k (i + 1)

/-- `ReactAnalyzer.analyze(content, filename)` (stateless variant). -/
def reactAnalyze (content fn : String) : List Issue :=
  reactScan fn (linesOf content) (linesOf content).length 0

/-- Per-file dispatch of the CLI driver: Java analyzer for `.java`, React
analyzer for files matching the `jsx?|tsx?` extension test, nothing otherwise. -/
def fileIssues (file : String × String) : List Issue :=
  if endsWithS file.1.toList ".java" then
    javaAnalyze file.2 file.1
  else if endsWithS file.1.toList ".js" || endsWithS file.1.toList ".jsx" ||
      endsWithS file.1.toList ".ts" || endsWithS file.1.toList ".tsx" then
    reactAnalyze file.2 file.1
  else
    []

/-- `analyzeFiles` of the CLI driver: findings of all files in discovery order. -/
def analyzeFiles : List (String × String) → List Issue
  | [] => []
  | f :: fs => fileIssues f ++ analyzeFiles fs

/-- The CLI `main`: it analyzes the changed files, displays the findings, and
returns; it never inspects finding severities before exiting, so a completed
run always ends with process status `0` (a non-zero status arises only from
the `catch` branch around filesystem and git failures, which the pure analysis
modeled here cannot reach).  The pair is (findings, exit status). -/
def mainRun (files : List (String × String)) : List Issue × Nat :=
  (analyzeFiles files, 0)

/-- Java rule 21 with the unguarded array access made explicit: evaluating
`lines[index - 1].includes('try')` on an out-of-range index is a runtime
`TypeError`, modeled as `Except.error`. -/
def resourceMgmtE (fn : String) (lines : List (List Char)) (index : Nat)
    (line : List Char) : Except String (List Issue) :=
  if (containsS line "FileInputStream" || containsS line "Connection" ||
      containsS line "Socket") && !containsS line "try" && decide (0 < index) then
    match lines.get? (index - 1) with
    | none => .error "TypeError: cannot read properties of undefined"
    | some prev => .ok (iteIssue (!containsS prev "try") (resourceMgmtIssue fn index))
  else
    .ok []

/-- All Java line rules with the single unguarded access made explicit. -/
def javaLineIssuesE (fn : String) (lines : List (List Char)) (index : Nat)
    (line : List Char) : Except String (List Issue) := do
  let mid ← resourceMgmtE fn lines index line
  pure (javaLineIssuesPre fn lines index line ++ mid ++ javaLineIssuesPost fn lines index line)

/-- Error-aware iteration of the `forEach` body of `JavaAnalyzer.analyze`. -/
def scanAuxE (fn : String) (lines : List (List Char)) :
    Nat → Nat → ScanState → Except String (List Issue)
  | 0, _, _ => .ok []
  | k + 1, i, st =>
    if (commentUpdate fn st (i + 1) (lines.getD i [])).1.inBlockComment then
      match scanAuxE fn lines k (i + 1) (commentUpdate fn st (i + 1) (lines.getD i [])).1 with
      | .error e => .error e
      | .ok rest => .ok ((commentUpdate fn st (i + 1) (lines.getD i [])).2 ++ rest)
    else
      match javaLineIssuesE fn lines i (lines.getD i []) with
      | .error e => .error e
      | .ok li =>
        match scanAuxE fn lines k (i + 1) (commentUpdate fn st (i + 1) (lines.getD i [])).1 with
        | .error e => .error e
        | .ok rest => .ok ((commentUpdate fn st (i + 1) (lines.getD i [])).2 ++ li ++ rest)

/-- Error-aware `JavaAnalyzer.analyze`. -/
def javaAnalyzeE (content fn : String) : Except String (List Issue) :=
  scanAuxE fn (linesOf content) (linesOf content).length 0 initScan

/-- A finding with the given rule id at the given line number is present. -/
def hasRuleAt (issues : List Issue) (r : String) (n : Nat) : Bool :=
  issues.any fun f => f.rule == r && f.line == n

/-- A finding with the given rule id and severity at the given line is present. -/
def hasFinding (issues : List Issue) (r sev : String) (n : Nat) : Bool :=
  issues.any fun f => f.rule == r && f.severity == sev && f.line == n

/-- A file opening a connection on line 1 whose `close()` sits `K + 1 = 11`
lines below the opening line, outside the ten-line leading window. -/
def leakWindowFar : List (List Char) :=
  ["c = getConnection();".toList] ++ List.replicate 10 "x".toList ++ ["r.close();".toList]

/-- The same file with the final line replaced, agreeing with `leakWindowFar`
on lines 1 through 11. -/
def leakWindowFarAlt : List (List Char) :=
  ["c = getConnection();".toList] ++ List.replicate 10 "x".toList ++ ["y = 1;".toList]

/-- A file opening a connection on line 1 whose `close()` sits `K - 1 = 9`
lines below the opening line, inside the ten-line leading window. -/
def leakWindowNear : List (List Char) :=
  ["c = getConnection();".toList] ++ List.replicate 8 "x".toList ++ ["r.close();".toList]

theorem mem_iteIssue {f : Issue} {c : Bool} {iss : Issue} :
    f ∈ iteIssue c iss ↔ c = true ∧ f = iss := by
  cases c <;> simp [iteIssue]

theorem all_iteIssue (c : Bool) (iss : Issue) (p : Issue → Bool) :
    (iteIssue c iss).all p = (!c || p iss) := by
  cases c <;> simp [iteIssue]

theorem any_iteIssue (c : Bool) (iss : Issue) (p : Issue → Bool) :
    (iteIssue c iss).any p = (c && p iss) := by
  cases c <;> simp [iteIssue]

theorem javaLineIssues_all (fn : String) (lines : List (List Char)) (index : Nat)
    (line : List Char) :
    (javaLineIssues fn lines index line).all
      (fun f => f.line == index + 1 && !isCommentRule f.rule) = true := by
  simp [javaLineIssues, javaLineIssuesPre, javaLineIssuesPost, all_iteIssue,
    isCommentRule, mkIssue, resourceMgmtIssue]

theorem analyzeBlockComment_all (text : List Char) (n : Nat) (fn : String) :
    (analyzeBlockComment text n fn).all
      (fun f => f.line == n && isCommentRule f.rule) = true := by
  unfold analyzeBlockComment
  by_cases h : (splitLines text).length ≤ 2
  · simp [h, isCommentRule, mkIssue]
  · simp [h, all_iteIssue, isCommentRule, mkIssue]

theorem commentUpdate_snd_all (fn : String) (st : ScanState) (n : Nat) (line : List Char) :
    ((commentUpdate fn st n line).2).all
      (fun f => f.line == st.blockCommentStart && isCommentRule f.rule) = true := by
  unfold commentUpdate
  split
  · simp
  · split
    · split
      · exact analyzeBlockComment_all _ _ _
      · simp
    · simp

theorem commentUpdate_snd_outside {fn : String} {st : ScanState} {n : Nat} {line : List Char}
    (h : st.inBlockComment = false) : (commentUpdate fn st n line).2 = [] := by
  unfold commentUpdate
  split
  · rfl
  · simp [h]

theorem javaStep_fst (fn : String) (lines : List (List Char)) (i : Nat) (st : ScanState) :
    (javaStep fn lines i st).1 = stepState fn lines i st := by
  unfold javaStep stepState
  split <;> rfl

theorem mem_javaStep {fn : String} {lines : List (List Char)} {i : Nat} {st : ScanState}
    {f : Issue} :
    f ∈ (javaStep fn lines i st).2 ↔
      f ∈ (commentUpdate fn st (i + 1) (lines.getD i [])).2 ∨
        ((commentUpdate fn st (i + 1) (lines.getD i [])).1.inBlockComment = false ∧
          f ∈ javaLineIssues fn lines i (lines.getD i [])) := by
  unfold javaStep
  split
  next h =>
    simp only [List.getD_eq_getElem?_getD] at h
    simp [h]
  next h =>
    simp only [List.getD_eq_getElem?_getD] at h
    simp [h]

theorem stAtFrom_shift (fn : String) (lines : List (List Char)) (st : ScanState) (i : Nat) :
    ∀ j, stAtFrom fn lines (stepState fn lines i st) (i + 1) j = stAtFrom fn lines st i (j + 1)
  | 0 => rfl
  | j + 1 => by
    show stepState fn lines (i + 1 + j) (stAtFrom fn lines (stepState fn lines i st) (i + 1) j)
        = stepState fn lines (i + (j + 1)) (stAtFrom fn lines st i (j + 1))
    rw [stAtFrom_shift fn lines st i j]
    have : i + 1 + j = i + (j + 1) := by omega
    rw [this]

theorem mem_scanAux {fn : String} {lines : List (List Char)} {f : Issue} :
    ∀ (k i : Nat) (st : ScanState),
      f ∈ scanAux fn lines k i st ↔
        ∃ j, j < k ∧ f ∈ (javaStep fn lines (i + j) (stAtFrom fn lines st i j)).2
  | 0, i, st => by simp [scanAux]
  | k + 1, i, st => by
    rw [scanAux]
    rw [List.mem_append]
    constructor
    · rintro (h | h)
      · exact ⟨0, by omega, h⟩
      · rw [javaStep_fst] at h
        rw [mem_scanAux k (i + 1) (stepState fn lines i st)] at h
        obtain ⟨j, hj, hm⟩ := h
        rw [stAtFrom_shift] at hm
        refine ⟨j + 1, by omega, ?_⟩
        have : i + 1 + j = i + (j + 1) := by omega
        rwa [this] at hm
    · rintro ⟨j, hj, hm⟩
      match j with
      | 0 => exact Or.inl hm
      | j + 1 =>
        right
        rw [javaStep_fst, mem_scanAux k (i + 1) (stepState fn lines i st)]
        refine ⟨j, by omega, ?_⟩
        rw [stAtFrom_shift]
        have : i + 1 + j = i + (j + 1) := by omega
        rwa [this]

theorem stAt_succ (fn : String) (lines : List (List Char)) (i : Nat) :
    stAt fn lines (i + 1) = stepState fn lines i (stAt fn lines i) := by
  show stepState fn lines (0 + i) (stAtFrom fn lines initScan 0 i) = _
  rw [Nat.zero_add]
  rfl

theorem stAt_start_bounds (fn : String) (lines : List (List Char)) :
    ∀ j, (stAt fn lines j).inBlockComment = true →
      1 ≤ (stAt fn lines j).blockCommentStart ∧ (stAt fn lines j).blockCommentStart ≤ j
  | 0, h => by simp [stAt, stAtFrom, initScan] at h
  | j + 1, h => by
    have ih := stAt_start_bounds fn lines j
    rw [stAt_succ] at h ⊢
    unfold stepState commentUpdate at h ⊢
    by_cases h1 : startsBlock (lines.getD j []) = true
    · simp only [if_pos h1] at h ⊢
      show 1 ≤ j + 1 ∧ j + 1 ≤ j + 1
      omega
    · simp only [if_neg h1] at h ⊢
      by_cases h2 : (stAt fn lines j).inBlockComment = true
      · simp only [if_pos h2] at h ⊢
        by_cases h3 : closesBlock (lines.getD j []) = true
        · simp only [if_pos h3] at h
          exact absurd h (by simp)
        · simp only [if_neg h3] at h ⊢
          show 1 ≤ (stAt fn lines j).blockCommentStart ∧
            (stAt fn lines j).blockCommentStart ≤ j + 1
          obtain ⟨a, b⟩ := ih h2
          omega
      · simp only [if_neg h2] at h
        exact absurd h h2

theorem mem_javaAnalyzeL {fn : String} {lines : List (List Char)} {f : Issue} :
    f ∈ javaAnalyzeL fn lines ↔
      ∃ j, j < lines.length ∧ f ∈ (javaStep fn lines j (stAt fn lines j)).2 := by
  rw [javaAnalyzeL, mem_scanAux]
  constructor
  · rintro ⟨j, hj, hm⟩
    rw [Nat.zero_add] at hm
    exact ⟨j, hj, hm⟩
  · rintro ⟨j, hj, hm⟩
    refine ⟨j, hj, ?_⟩
    rw [Nat.zero_add]
    exact hm

theorem javaAnalyzeL_bounds {fn : String} {lines : List (List Char)} {f : Issue}
    (h : f ∈ javaAnalyzeL fn lines) : 1 ≤ f.line ∧ f.line ≤ lines.length := by
  rw [mem_javaAnalyzeL] at h
  obtain ⟨j, hj, hm⟩ := h
  rw [mem_javaStep] at hm
  rcases hm with hc | ⟨-, hl⟩
  · by_cases hin : (stAt fn lines j).inBlockComment = true
    · have hall := commentUpdate_snd_all fn (stAt fn lines j) (j + 1) (lines.getD j [])
      rw [List.all_eq_true] at hall
      have hp := hall f hc
      rw [Bool.and_eq_true, beq_iff_eq] at hp
      obtain ⟨a, b⟩ := stAt_start_bounds fn lines j hin
      omega
    · rw [commentUpdate_snd_outside (Bool.not_eq_true _ ▸ hin : (stAt fn lines j).inBlockComment = false)] at hc
      simp at hc
  · have hall := javaLineIssues_all fn lines j (lines.getD j [])
    rw [List.all_eq_true] at hall
    have hp := hall f hl
    rw [Bool.and_eq_true, beq_iff_eq] at hp
    omega

theorem leak_any_lineIssues (fn : String) (lines : List (List Char)) (index : Nat)
    (line : List Char) :
    (javaLineIssues fn lines index line).any
      (fun f => f.rule == "RESOURCE_LEAK" && f.line == index + 1)
      = resourceLeakCond lines index line := by
  simp [javaLineIssues, javaLineIssuesPre, javaLineIssuesPost, any_iteIssue,
    mkIssue, resourceMgmtIssue]

theorem leak_presence (fn : String) (lines : List (List Char)) (i : Nat)
    (hi : i < lines.length) (hran : (stAt fn lines (i + 1)).inBlockComment = false) :
    hasRuleAt (javaAnalyzeL fn lines) "RESOURCE_LEAK" (i + 1)
      = resourceLeakCond lines i (lines.getD i []) := by
  rw [Bool.eq_iff_iff]
  rw [hasRuleAt, List.any_eq_true]
  constructor
  · rintro ⟨f, hf, hp⟩
    rw [Bool.and_eq_true, beq_iff_eq, beq_iff_eq] at hp
    obtain ⟨hrule, hline⟩ := hp
    rw [mem_javaAnalyzeL] at hf
    obtain ⟨j, hj, hm⟩ := hf
    rw [mem_javaStep] at hm
    rcases hm with hc | ⟨-, hl⟩
    · by_cases hin : (stAt fn lines j).inBlockComment = true
      · have hall := commentUpdate_snd_all fn (stAt fn lines j) (j + 1) (lines.getD j [])
        rw [List.all_eq_true] at hall
        have hp2 := hall f hc
        rw [Bool.and_eq_true] at hp2
        rw [hrule] at hp2
        exact absurd hp2.2 (by simp [isCommentRule])
      · rw [commentUpdate_snd_outside (Bool.not_eq_true _ ▸ hin :
          (stAt fn lines j).inBlockComment = false)] at hc
        simp at hc
    · have hall := javaLineIssues_all fn lines j (lines.getD j [])
      rw [List.all_eq_true] at hall
      have hp2 := hall f hl
      rw [Bool.and_eq_true, beq_iff_eq] at hp2
      have hji : j = i := by omega
      subst hji
      have hany : (javaLineIssues fn lines j (lines.getD j [])).any
          (fun f => f.rule == "RESOURCE_LEAK" && f.line == j + 1) = true := by
        rw [List.any_eq_true]
        exact ⟨f, hl, by rw [Bool.and_eq_true, beq_iff_eq, beq_iff_eq]; exact ⟨hrule, hline⟩⟩
      rw [leak_any_lineIssues] at hany
      exact hany
  · intro hC
    have hany : (javaLineIssues fn lines i (lines.getD i [])).any
        (fun f => f.rule == "RESOURCE_LEAK" && f.line == i + 1) = true := by
      rw [leak_any_lineIssues]
      exact hC
    rw [List.any_eq_true] at hany
    obtain ⟨f, hf, hp⟩ := hany
    refine ⟨f, ?_, hp⟩
    rw [mem_javaAnalyzeL]
    refine ⟨i, hi, ?_⟩
    rw [mem_javaStep]
    right
    refine ⟨?_, hf⟩
    rw [stAt_succ] at hran
    exact hran

theorem getD_of_get? {l : List (List Char)} {n : Nat} {a : List Char}
    (h : l.get? n = some a) : l.getD n [] = a := by
  rw [List.getD_eq_getElem?_getD, ← List.get?_eq_getElem?, h]
  rfl

theorem jsSlice_get? (l : List (List Char)) (a b j : Nat) :
    (jsSlice l a b).get? j = if a + j < b then l.get? (a + j) else none := by
  rw [jsSlice, List.get?_drop]
  by_cases h : a + j < b
  · rw [if_pos h, List.get?_take h]
  · rw [if_neg h]
    rw [List.get?_eq_none]
    have : (l.take b).length = min b l.length := List.length_take b l
    omega

theorem jsSlice_window_congr {ls₁ ls₂ : List (List Char)} {i : Nat}
    (hag : ∀ j, j ≤ 10 → ls₁.get? (i + j) = ls₂.get? (i + j)) :
    jsSlice ls₁ i (min (i + 10) ls₁.length) = jsSlice ls₂ i (min (i + 10) ls₂.length) := by
  apply List.ext_get?
  intro n
  rw [jsSlice_get?, jsSlice_get?]
  by_cases hn : n < 10
  · have heq := hag n (by omega)
    by_cases h1 : i + n < ls₁.length
    · have h2 : i + n < ls₂.length := by
        by_contra h2
        have : ls₂.get? (i + n) = none := List.get?_eq_none.mpr (by omega)
        rw [this] at heq
        rw [List.get?_eq_none] at heq
        omega
      rw [if_pos (by omega), if_pos (by omega)]
      exact heq
    · have h2 : ¬ i + n < ls₂.length := by
        intro h2
        have : ls₁.get? (i + n) = none := List.get?_eq_none.mpr (by omega)
        rw [this] at heq
        have := List.get?_eq_none.mp heq.symm
        omega
      rw [if_neg (by omega), if_neg (by omega)]
  · rw [if_neg (by omega), if_neg (by omega)]

theorem resourceLeakCond_congr {ls₁ ls₂ : List (List Char)} {i : Nat}
    (h1 : i < ls₁.length) (h2 : i < ls₂.length)
    (hag : ∀ j, j ≤ 10 → ls₁.get? (i + j) = ls₂.get? (i + j)) :
    resourceLeakCond ls₁ i (ls₁.getD i []) = resourceLeakCond ls₂ i (ls₂.getD i []) := by
  have heq := hag 0 (by omega)
  rw [Nat.add_zero] at heq
  have ha := List.get?_eq_get h1
  have hline : ls₁.getD i [] = ls₂.getD i [] := by
    rw [getD_of_get? ha, getD_of_get? (heq ▸ ha)]
  rw [resourceLeakCond, resourceLeakCond, hline, jsSlice_window_congr hag]

theorem resourceMgmtE_eq (fn : String) (lines : List (List Char)) (index : Nat)
    (line : List Char) (h : index < lines.length) :
    resourceMgmtE fn lines index line =
      Except.ok (iteIssue (resourceMgmtCond lines index line) (resourceMgmtIssue fn index)) := by
  rw [resourceMgmtE, resourceMgmtCond]
  by_cases hg : ((containsS line "FileInputStream" || containsS line "Connection" ||
      containsS line "Socket") && !containsS line "try" && decide (0 < index)) = true
  · rw [if_pos hg]
    have hidx : 0 < index := by
      rw [Bool.and_eq_true, decide_eq_true_eq] at hg
      exact hg.2
    have hlt : index - 1 < lines.length := by omega
    have hsome := List.get?_eq_get hlt
    rw [hsome, hg, Bool.true_and, getD_of_get? hsome]
  · rw [if_neg hg]
    have hgf : ((containsS line "FileInputStream" || containsS line "Connection" ||
        containsS line "Socket") && !containsS line "try" && decide (0 < index)) = false := by
      revert hg
      cases ((containsS line "FileInputStream" || containsS line "Connection" ||
        containsS line "Socket") && !containsS line "try" && decide (0 < index)) <;> simp
    rw [hgf, Bool.false_and]
    rfl

theorem javaLineIssuesE_eq (fn : String) (lines : List (List Char)) (index : Nat)
    (line : List Char) (h : index < lines.length) :
    javaLineIssuesE fn lines index line = .ok (javaLineIssues fn lines index line) := by
  rw [javaLineIssuesE, resourceMgmtE_eq fn lines index line h]
  rfl

theorem scanAuxE_eq (fn : String) (lines : List (List Char)) :
    ∀ (k i : Nat) (st : ScanState), i + k ≤ lines.length →
      scanAuxE fn lines k i st = .ok (scanAux fn lines k i st)
  | 0, _, _, _ => rfl
  | k + 1, i, st, h => by
    have hik : i + 1 + k ≤ lines.length := by omega
    have hlt : i < lines.length := by omega
    rw [scanAuxE, scanAux]
    rw [scanAuxE_eq fn lines k (i + 1) (commentUpdate fn st (i + 1) (lines.getD i [])).1 hik]
    rw [javaLineIssuesE_eq fn lines i (lines.getD i []) hlt]
    rw [javaStep_fst, stepState]
    rw [javaStep]
    by_cases c : (commentUpdate fn st (i + 1) (lines.getD i [])).1.inBlockComment = true
    · rw [if_pos c, if_pos c]
    · rw [if_neg c, if_neg c]

theorem javaAnalyzeE_eq (content fn : String) :
    javaAnalyzeE content fn = .ok (javaAnalyze content fn) := by
  rw [javaAnalyzeE, javaAnalyze, javaAnalyzeL]
  exact scanAuxE_eq fn (linesOf content) (linesOf content).length 0 initScan (by omega)

theorem commentUpdate_inside (fn : String) (st : ScanState) (n : Nat) (line : List Char)
    (h : st.inBlockComment = true) (hc : closesBlock line = false) :
    (commentUpdate fn st n line).1.inBlockComment = true ∧
      (commentUpdate fn st n line).2 = [] := by
  rw [commentUpdate]
  by_cases h1 : startsBlock line = true
  · simp [if_pos h1]
  · simp only [if_neg h1, h, if_pos rfl, hc]
    simp

theorem scanAux_inside_nil (fn : String) (lines : List (List Char))
    (hnc : ∀ i, closesBlock (lines.getD i []) = false) :
    ∀ (k i : Nat) (st : ScanState), st.inBlockComment = true →
      scanAux fn lines k i st = [] ∧ (stAtFrom fn lines st i k).inBlockComment = true
  | 0, _, _, h => ⟨rfl, h⟩
  | k + 1, i, st, h => by
    obtain ⟨c1, c2⟩ :=
      commentUpdate_inside fn st (i + 1) (lines.getD i []) h (hnc i)
    have hstep2 : (javaStep fn lines i st).2 = [] := by
      rw [javaStep, if_pos c1, c2]
    have hstep1 : (javaStep fn lines i st).1.inBlockComment = true := by
      rw [javaStep_fst, stepState]
      exact c1
    obtain ⟨r1, r2⟩ :=
      scanAux_inside_nil fn lines hnc k (i + 1) (javaStep fn lines i st).1 hstep1
    constructor
    · rw [scanAux, hstep2, r1]
      rfl
    · rw [javaStep_fst] at r2
      rw [← stAtFrom_shift]
      exact r2

theorem closes_getD_false {lines : List (List Char)}
    (h : ∀ l ∈ lines, closesBlock l = false) :
    ∀ i, closesBlock (lines.getD i []) = false := by
  intro i
  by_cases hi : i < lines.length
  · have hsome := List.get?_eq_get hi
    rw [getD_of_get? hsome]
    exact h _ (lines.get_mem _ _)
  · have hnone : lines.get? i = none := List.get?_eq_none.mpr (by omega)
    rw [List.getD_eq_getElem?_getD, ← List.get?_eq_getElem?, hnone]
    rfl

theorem splitLines_ne_nil (l : List Char) : splitLines l ≠ [] := by
  rw [splitLines.eq_def]
  split
  · simp
  · simp
  · split <;> simp

theorem reactLineIssues_all (fn : String) (lines : List (List Char)) (index : Nat)
    (line : List Char) :
    (reactLineIssues fn lines index line).all (fun f => f.line == index + 1) = true := by
  simp [reactLineIssues, all_iteIssue, mkIssue]

theorem mem_reactScan {fn : String} {lines : List (List Char)} {f : Issue} :
    ∀ (k i : Nat),
      f ∈ reactScan fn lines k i ↔
        ∃ j, j < k ∧ f ∈ reactLineIssues fn lines (i + j) (lines.getD (i + j) [])
  | 0, i => by simp [reactScan]
  | k + 1, i => by
    rw [reactScan, List.mem_append]
    constructor
    · rintro (h | h)
      · exact ⟨0, by omega, by simpa using h⟩
      · obtain ⟨j, hj, hm⟩ := (mem_reactScan k (i + 1)).mp h
        refine ⟨j + 1, by omega, ?_⟩
        have hidx : i + 1 + j = i + (j + 1) := by omega
        rwa [hidx] at hm
    · rintro ⟨j, hj, hm⟩
      match j with
      | 0 =>
        left
        simpa using hm
      | j + 1 =>
        right
        rw [mem_reactScan k (i + 1)]
        refine ⟨j, by omega, ?_⟩
        have hidx : i + 1 + j = i + (j + 1) := by omega
        rwa [hidx]

theorem missingImport_any (fn : String) (lines : List (List Char)) (index : Nat)
    (line : List Char) :
    (reactLineIssues fn lines index line).any
      (fun f => f.rule == "MISSING_IMPORT" && f.severity == "error" && f.line == index + 1)
      = (containsS line "useState" && !containsS line "import") := by
  simp [reactLineIssues, any_iteIssue, mkIssue]

/-- C1 (amended): the Block-Comment Tracker transitions `outside → inside`
exactly on a line whose trimmed text begins `/*`, and `inside → outside`
exactly on a line that does not itself begin `/*` and whose own trimmed text
contains `*/`; a closing marker on the opening line itself does not close the
comment. -/
theorem claim1_tracker_transitions :
    (∀ (fn : String) (lines : List (List Char)) (i : Nat),
        (stAt fn lines i).inBlockComment = false →
        (stAt fn lines (i + 1)).inBlockComment = startsBlock (lines.getD i [])) ∧
    (∀ (fn : String) (lines : List (List Char)) (i : Nat),
        (stAt fn lines i).inBlockComment = true →
        ((stAt fn lines (i + 1)).inBlockComment = false ↔
          startsBlock (lines.getD i []) = false ∧ closesBlock (lines.getD i []) = true)) := by
  constructor
  · intro fn lines i h
    rw [stAt_succ, stepState, commentUpdate]
    by_cases h1 : startsBlock (lines.getD i []) = true
    · rw [if_pos h1, h1]
    · have h1f : startsBlock (lines.getD i []) = false := by
        revert h1
        cases startsBlock (lines.getD i []) <;> simp
      rw [if_neg h1, if_neg (by rw [h]; exact Bool.false_ne_true), h1f]
      exact h
  · intro fn lines i h
    rw [stAt_succ, stepState, commentUpdate]
    by_cases h1 : startsBlock (lines.getD i []) = true
    · rw [if_pos h1]
      constructor
      · intro hff
        simp at hff
      · rintro ⟨ha, -⟩
        rw [h1] at ha
        exact absurd ha (by simp)
    · rw [if_neg h1, if_pos h]
      have h1f : startsBlock (lines.getD i []) = false := by
        revert h1
        cases startsBlock (lines.getD i []) <;> simp
      by_cases h3 : closesBlock (lines.getD i []) = true
      · rw [if_pos h3]
        exact ⟨fun _ => ⟨h1f, h3⟩, fun _ => rfl⟩
      · rw [if_neg h3]
        constructor
        · intro hff
          simp at hff
        · rintro ⟨-, hc⟩
          exact absurd hc h3

/-- C1 counterexample: consuming the single line `/* x */`, whose trimmed text
both begins a block comment and contains the closing marker, leaves the
tracker in mode inside, and the comment-content analyzer is never invoked on
that comment (an invocation would have emitted an `EMPTY_BLOCK_COMMENT`
finding, but the analysis returns no findings at all). -/
theorem claim1_counterexample :
    startsBlock ((linesOf "/* x */").getD 0 []) = true ∧
    closesBlock ((linesOf "/* x */").getD 0 []) = true ∧
    (stAt "A.java" (linesOf "/* x */") 1).inBlockComment = true ∧
    javaAnalyzeL "A.java" (linesOf "/* x */") = [] := by
  exact ⟨by decide, by decide, by decide, by decide⟩

/-- C1 witness: the transition characterization applied to a one-line file
whose line opens a block comment. -/
theorem claim1_witness :
    (stAt "A.java" ["/* open".toList] 0).inBlockComment = false ∧
    (stAt "A.java" ["/* open".toList] 1).inBlockComment
      = startsBlock (["/* open".toList].getD 0 []) := by
  refine ⟨by decide, ?_⟩
  exact claim1_tracker_transitions.1 "A.java" ["/* open".toList] 0 (by decide)

/-- C2 (amended): every line after which the tracker is still inside a block
comment — the opening line and the lines strictly between the opening and the
closing marker — is never passed to the Line Classifier, so no line-rule
finding (no finding outside the five block-comment rules) carries such a
line's number; the line containing the closing marker, however, is passed to
the Line Classifier after the tracker transitions back outside. -/
theorem claim2_comment_lines_not_classified :
    (∀ (fn : String) (lines : List (List Char)) (i : Nat),
        (stAt fn lines (i + 1)).inBlockComment = true →
        ∀ f ∈ javaAnalyzeL fn lines, isCommentRule f.rule = false → f.line ≠ i + 1) ∧
    javaAnalyze "/*\nSystem.out.println(\"x\");\n*/" "A.java" = [] := by
  constructor
  · intro fn lines i hin f hf hrule hline
    rw [mem_javaAnalyzeL] at hf
    obtain ⟨j, hj, hm⟩ := hf
    rw [mem_javaStep] at hm
    rcases hm with hc | ⟨hout, hl⟩
    · by_cases hjin : (stAt fn lines j).inBlockComment = true
      · have hall := commentUpdate_snd_all fn (stAt fn lines j) (j + 1) (lines.getD j [])
        rw [List.all_eq_true] at hall
        have hp := hall f hc
        rw [Bool.and_eq_true] at hp
        rw [hp.2] at hrule
        exact absurd hrule (by simp)
      · rw [commentUpdate_snd_outside (Bool.not_eq_true _ ▸ hjin :
          (stAt fn lines j).inBlockComment = false)] at hc
        simp at hc
    · have hall := javaLineIssues_all fn lines j (lines.getD j [])
      rw [List.all_eq_true] at hall
      have hp := hall f hl
      rw [Bool.and_eq_true, beq_iff_eq] at hp
      have hji : j = i := by omega
      subst hji
      rw [stAt_succ, stepState] at hin
      rw [hout] at hin
      exact absurd hin (by simp)
  · decide

/-- C2 counterexample: in the file `/*` + `*/ System.out.println("x");`, line 2
is consumed while the tracker is inside (the state after line 1 is inside),
contains the matching closing marker, and nevertheless receives a line-rule
finding: `USE_LOGGING_FRAMEWORK` at line 2. -/
theorem claim2_counterexample :
    (stAt "A.java" (linesOf "/*\n*/ System.out.println(\"x\");") 1).inBlockComment = true ∧
    closesBlock ((linesOf "/*\n*/ System.out.println(\"x\");").getD 1 []) = true ∧
    hasRuleAt (javaAnalyze "/*\n*/ System.out.println(\"x\");" "A.java")
      "USE_LOGGING_FRAMEWORK" 2 = true ∧
    isCommentRule "USE_LOGGING_FRAMEWORK" = false := by
  exact ⟨by decide, by decide, by decide, by decide⟩

/-- C2 witness: the containment theorem applied to the file `/*` + `x`, whose
line 1 opens a comment that never closes; no line-rule finding carries
line number 1. -/
theorem claim2_witness :
    (stAt "A.java" ["/*".toList, "x".toList] 1).inBlockComment = true ∧
    ∀ f ∈ javaAnalyzeL "A.java" ["/*".toList, "x".toList],
      isCommentRule f.rule = false → f.line ≠ 1 := by
  refine ⟨by decide, ?_⟩
  exact claim2_comment_lines_not_classified.1 "A.java" ["/*".toList, "x".toList] 0 (by decide)

/-- C3 (amended): for a closed block comment of at most two lines, only
`EMPTY_BLOCK_COMMENT` is emitted and the remaining checks are skipped; for a
comment of three or more lines the four remaining checks are evaluated
independently — each fires exactly when its own condition holds, on the
comment's opening line — and a closed three-line block comment containing a
fix-me token yields an error-severity `FIXME_COMMENT` finding. -/
theorem claim3_blockcomment_checks :
    (∀ (text : List Char) (start : Nat) (fn : String),
      3 ≤ (splitLines text).length →
      (hasFinding (analyzeBlockComment text start fn) "FIXME_COMMENT" "error" start
          = containsS (lowerL text) "fixme") ∧
      (hasRuleAt (analyzeBlockComment text start fn) "INCOMPLETE_TODO_BLOCK" start
          = (containsS (lowerL text) "todo" &&
             (match (splitOnL "TODO".toList text).get? 1 with
              | none => true
              | some s => (jsTrimL s).isEmpty))) ∧
      (hasRuleAt (analyzeBlockComment text start fn) "TEMPORARY_WORKAROUND" start
          = (containsS (lowerL text) "bug" || containsS (lowerL text) "hack")) ∧
      (hasRuleAt (analyzeBlockComment text start fn) "INCOMPLETE_JAVADOC" start
          = (containsS text "/**" &&
             (!containsS text "@param" && !containsS text "@return" &&
              !containsS text "@throws" && decide (50 < text.length)))) ∧
      (hasRuleAt (analyzeBlockComment text start fn) "EMPTY_BLOCK_COMMENT" start = false) ∧
      (∀ f ∈ analyzeBlockComment text start fn, f.line = start)) ∧
    hasFinding (javaAnalyze "/* fixme\nx\n*/" "A.java") "FIXME_COMMENT" "error" 1 = true := by
  constructor
  · intro text start fn h3
    have h2 : ¬ (splitLines text).length ≤ 2 := by omega
    refine ⟨?_, ?_, ?_, ?_, ?_, ?_⟩
    · simp [hasFinding, analyzeBlockComment, h2, any_iteIssue, mkIssue]
    · simp [hasRuleAt, analyzeBlockComment, h2, any_iteIssue, mkIssue]
    · simp [hasRuleAt, analyzeBlockComment, h2, any_iteIssue, mkIssue]
    · simp [hasRuleAt, analyzeBlockComment, h2, any_iteIssue, mkIssue]
    · simp [hasRuleAt, analyzeBlockComment, h2, any_iteIssue, mkIssue]
    · intro f hf
      have hall := analyzeBlockComment_all text start fn
      rw [List.all_eq_true] at hall
      have hp := hall f hf
      rw [Bool.and_eq_true, beq_iff_eq] at hp
      exact hp.1
  · decide

/-- C3 counterexample: the closed two-line block comment `/* fixme` + `*/`
contains a fix-me token, yet the analysis emits only `EMPTY_BLOCK_COMMENT`
and no `FIXME_COMMENT` finding — the empty-comment check's firing returns
early and suppresses every later check. -/
theorem claim3_counterexample :
    javaAnalyze "/* fixme\n*/" "A.java" =
      [mkIssue "A.java" 1 "info" "EMPTY_BLOCK_COMMENT"
        "Block comment appears to be empty"
        "Remove or add meaningful documentation"] ∧
    containsS (lowerL "/* fixme\n*/".toList) "fixme" = true ∧
    hasFinding (javaAnalyze "/* fixme\n*/" "A.java") "FIXME_COMMENT" "error" 1 = false := by
  exact ⟨by decide, by decide, by decide⟩

/-- C3 witness: the independence theorem applied to the three-line comment
`/* fixme` + `x` + `*/`. -/
theorem claim3_witness :
    hasFinding (analyzeBlockComment "/* fixme\nx\n*/".toList 1 "A.java")
      "FIXME_COMMENT" "error" 1 = true := by
  have h := (claim3_blockcomment_checks.1 "/* fixme\nx\n*/".toList 1 "A.java" (by decide)).1
  rw [h]
  decide

/-- C4: on the two-line JVM-dialect input `System.out.println("x");` + empty
line, `analyze` returns exactly one finding: `USE_LOGGING_FRAMEWORK`, severity
warning, line 1 — no other rule of the Java catalog matches either line. -/
theorem claim4_single_println_finding :
    javaAnalyze "System.out.println(\"x\");\n" "Test.java" =
      [mkIssue "Test.java" 1 "warning" "USE_LOGGING_FRAMEWORK"
        "Use a logging framework instead of System.out/err.println"
        "Replace with logger.info() or logger.error()"] := by
  decide

/-- C5: if the first line opens a block comment and no line of the file
contains the closing marker, the whole file is consumed inside the comment:
`analyze` completes without a runtime error and returns zero findings — the
accumulated comment text is discarded, never handed to the comment-content
analyzer — and the tracker is still inside at end of file. -/
theorem claim5_unterminated_comment_discarded :
    ∀ (content fn : String),
      startsBlock ((linesOf content).getD 0 []) = true →
      (∀ l ∈ linesOf content, closesBlock l = false) →
      javaAnalyzeE content fn = Except.ok [] ∧
      (stAt fn (linesOf content) (linesOf content).length).inBlockComment = true := by
  intro content fn h0 hnc
  have hgd := closes_getD_false hnc
  have hne : linesOf content ≠ [] := splitLines_ne_nil content.toList
  obtain ⟨m, hm⟩ : ∃ m, (linesOf content).length = m + 1 := by
    cases hl : linesOf content with
    | nil => exact absurd hl hne
    | cons a as => exact ⟨as.length, by simp [hl]⟩
  have hcu : (commentUpdate fn initScan 1 ((linesOf content).getD 0 [])).1.inBlockComment
      = true := by
    rw [commentUpdate, if_pos h0]
  have hstep1 : (javaStep fn (linesOf content) 0 initScan).1.inBlockComment = true := by
    rw [javaStep_fst, stepState]
    exact hcu
  have hstep2 : (javaStep fn (linesOf content) 0 initScan).2 = [] := by
    rw [javaStep, if_pos hcu, commentUpdate, if_pos h0]
  obtain ⟨r1, r2⟩ := scanAux_inside_nil fn (linesOf content) hgd m 1
    (javaStep fn (linesOf content) 0 initScan).1 hstep1
  have hpure : javaAnalyze content fn = [] := by
    rw [javaAnalyze, javaAnalyzeL, hm, scanAux, hstep2, r1]
    rfl
  constructor
  · rw [javaAnalyzeE_eq, hpure]
  · rw [hm]
    show (stAtFrom fn (linesOf content) initScan 0 (m + 1)).inBlockComment = true
    rw [← stAtFrom_shift]
    rw [javaStep_fst] at r2
    exact r2

/-- C5 witness: the theorem applied to a concrete single unterminated block
comment spanning to end of file. -/
theorem claim5_witness :
    startsBlock ((linesOf "/*\n * FIXME broken\n * tail").getD 0 []) = true ∧
    (∀ l ∈ linesOf "/*\n * FIXME broken\n * tail", closesBlock l = false) ∧
    javaAnalyzeE "/*\n * FIXME broken\n * tail" "A.java" = Except.ok [] := by
  refine ⟨by decide, by decide, ?_⟩
  exact (claim5_unterminated_comment_discarded "/*\n * FIXME broken\n * tail" "A.java"
    (by decide) (by decide)).1

/-- C6: the RESOURCE_LEAK rule's ten-line leading window is bounded — for any
two files that agree on line `i + 1` and the ten following lines (0-based
agreement on indices `i` through `i + 10`) and in which that line is reached
outside a block comment, the `RESOURCE_LEAK` finding at that line is present
in one analysis result exactly when it is present in the other; concretely, a
`close()` placed `K + 1 = 11` lines below the opening line does not suppress
the finding, while one placed `K - 1 = 9` lines below does. -/
theorem claim6_window_bounded :
    (∀ (fn₁ fn₂ : String) (ls₁ ls₂ : List (List Char)) (i : Nat),
        i < ls₁.length → i < ls₂.length →
        (stAt fn₁ ls₁ (i + 1)).inBlockComment = false →
        (stAt fn₂ ls₂ (i + 1)).inBlockComment = false →
        (∀ j, j ≤ 10 → ls₁.get? (i + j) = ls₂.get? (i + j)) →
        hasRuleAt (javaAnalyzeL fn₁ ls₁) "RESOURCE_LEAK" (i + 1)
          = hasRuleAt (javaAnalyzeL fn₂ ls₂) "RESOURCE_LEAK" (i + 1)) ∧
    hasRuleAt (javaAnalyzeL "A.java" leakWindowFar) "RESOURCE_LEAK" 1 = true ∧
    hasRuleAt (javaAnalyzeL "A.java" leakWindowNear) "RESOURCE_LEAK" 1 = false := by
  refine ⟨?_, by decide, by decide⟩
  intro fn₁ fn₂ ls₁ ls₂ i h1 h2 hr1 hr2 hag
  rw [leak_presence fn₁ ls₁ i h1 hr1, leak_presence fn₂ ls₂ i h2 hr2]
  exact resourceLeakCond_congr h1 h2 hag

/-- C6 witness: the window theorem applied to two concrete files that agree on
the first eleven lines and differ on line 12, outside the window of line 1. -/
theorem claim6_witness :
    hasRuleAt (javaAnalyzeL "A.java" leakWindowFar) "RESOURCE_LEAK" 1
      = hasRuleAt (javaAnalyzeL "B.java" leakWindowFarAlt) "RESOURCE_LEAK" 1 := by
  apply claim6_window_bounded.1 "A.java" "B.java" leakWindowFar leakWindowFarAlt 0
    (by decide) (by decide) (by decide) (by decide)
  intro j hj
  interval_cases j <;> decide

/-- C7: every finding returned by `analyze` carries a line number indexing a
real line of the input file: `1 ≤ line ≤ number of lines`, for the Java
analyzer (line rules and block-comment findings alike) and for the React
analyzer. -/
theorem claim7_line_bounds :
    (∀ (content fn : String), ∀ f ∈ javaAnalyze content fn,
        1 ≤ f.line ∧ f.line ≤ (linesOf content).length) ∧
    (∀ (content fn : String), ∀ f ∈ reactAnalyze content fn,
        1 ≤ f.line ∧ f.line ≤ (linesOf content).length) := by
  constructor
  · intro content fn f hf
    rw [javaAnalyze] at hf
    exact javaAnalyzeL_bounds hf
  · intro content fn f hf
    rw [reactAnalyze, mem_reactScan] at hf
    obtain ⟨j, hj, hm⟩ := hf
    have hall := reactLineIssues_all fn (linesOf content) (0 + j)
      ((linesOf content).getD (0 + j) [])
    rw [List.all_eq_true] at hall
    have hp := hall f hm
    rw [beq_iff_eq] at hp
    omega

/-- C7 witness: the bounds theorem applied to the finding produced on the
two-line println input. -/
theorem claim7_witness :
    (mkIssue "Test.java" 1 "warning" "USE_LOGGING_FRAMEWORK"
        "Use a logging framework instead of System.out/err.println"
        "Replace with logger.info() or logger.error()"
      ∈ javaAnalyze "System.out.println(\"x\");\n" "Test.java") ∧
    (1 : Nat) ≤ 1 ∧ (1 : Nat) ≤ (linesOf "System.out.println(\"x\");\n").length := by
  have hm : mkIssue "Test.java" 1 "warning" "USE_LOGGING_FRAMEWORK"
      "Use a logging framework instead of System.out/err.println"
      "Replace with logger.info() or logger.error()"
      ∈ javaAnalyze "System.out.println(\"x\");\n" "Test.java" := by decide
  exact ⟨hm, claim7_line_bounds.1 "System.out.println(\"x\");\n" "Test.java" _ hm⟩

/-- C8 (amended): the CLI driver's exit status does not reflect finding
severities — a run that completes the analysis always exits with status 0,
whatever findings (including error-severity ones) were produced; a non-zero
status arises only when an exception aborts the run. -/
theorem claim8_exit_code_constant :
    ∀ files : List (String × String),
      (mainRun files).2 = 0 ∧ (mainRun files).1 = analyzeFiles files := by
  intro files
  exact ⟨rfl, rfl⟩

/-- C8 counterexample: a run over a Java file with a hardcoded password
produces an error-severity finding, yet the process exit status is 0, not
non-zero as the claim requires. -/
theorem claim8_counterexample :
    (analyzeFiles [("A.java", "String password = \"x\";")]).any
        (fun f => f.severity == "error") = true ∧
    (mainRun [("A.java", "String password = \"x\";")]).2 = 0 := by
  exact ⟨by decide, rfl⟩

/-- C9: the React analyzer's MISSING_IMPORT check is purely line-local — every
line containing `useState` but not itself containing `import` receives an
error-severity `MISSING_IMPORT` finding, regardless of the rest of the file;
in particular a file importing useState on line 1 and calling it on line 2
still gets the finding on line 2. -/
theorem claim9_missing_import_line_local :
    (∀ (content fn : String) (i : Nat),
        i < (linesOf content).length →
        containsS ((linesOf content).getD i []) "useState" = true →
        containsS ((linesOf content).getD i []) "import" = false →
        hasFinding (reactAnalyze content fn) "MISSING_IMPORT" "error" (i + 1) = true) ∧
    hasFinding
      (reactAnalyze "import \x7b useState \x7d from 'react';\nconst [x, setX] = useState(0);"
        "App.jsx")
      "MISSING_IMPORT" "error" 2 = true := by
  constructor
  · intro content fn i hi hu hn
    have hany : (reactLineIssues fn (linesOf content) i ((linesOf content).getD i [])).any
        (fun f => f.rule == "MISSING_IMPORT" && f.severity == "error" && f.line == i + 1)
        = true := by
      rw [missingImport_any, hu, hn]
      rfl
    rw [List.any_eq_true] at hany
    obtain ⟨f, hf, hp⟩ := hany
    rw [hasFinding, List.any_eq_true]
    refine ⟨f, ?_, hp⟩
    rw [reactAnalyze, mem_reactScan]
    exact ⟨i, hi, by simpa using hf⟩
  · decide

/-- C9 witness: the line-local theorem applied to a one-line file calling
useState without an import. -/
theorem claim9_witness :
    hasFinding (reactAnalyze "const [x, setX] = useState(0);" "App.jsx")
      "MISSING_IMPORT" "error" 1 = true :=
  claim9_missing_import_line_local.1 "const [x, setX] = useState(0);" "App.jsx" 0
    (by decide) (by decide) (by decide)

/-- C10: `analyze` is total — the error-aware model, in which the one
unguarded neighboring-line access would surface as a runtime `TypeError`,
returns `ok` with the pure analyzer's finding list on every input, including
the empty file. -/
theorem claim10_analyze_total :
    (∀ content fn : String, javaAnalyzeE content fn = Except.ok (javaAnalyze content fn)) ∧
    javaAnalyze "" "A.java" = [] := by
  exact ⟨javaAnalyzeE_eq, by decide⟩
